import Mathlib

/-!
Verification of the client-side request/response exchange protocol of the
ai-assistant-frontend repository.

The development shallowly embeds the protocol-relevant logic of the three
source files:

* src/components/agent.tsx — two component variants: a voice-only variant
  (referred to below as the voice-only component) and a unified voice+text
  variant (referred to below as the unified component).  Both define
  isSecureContextOrLocal, queryMicPermission, base64ToBlob, startRecording
  with a recorder.onstop handler, and sendAudio; the unified variant adds
  handleBackendJson and sendText.
* src/components/only-for-test.tsx — the minimal text-only component with
  fetchEvents and handleSubmit.

JavaScript values flowing through the handlers are modelled by the Json
type below (numeric values modelled as integers; float formatting of
JSON.stringify is out of scope and unused by every theorem).  Browser
side effects (React state setters, toast calls, URL object creation,
MediaStream tracks) are modelled as explicit record fields.  A body of an
HTTP response is modelled as either a value that res.json() parses to, or
a plain text that res.json() rejects; res.text() of a JSON body is its
compact serialization.
-/

/-! ## JSON value model -/

mutual
/-- A JSON value as produced by res.json().  Numeric values are modelled as
integers; no theorem below depends on number formatting. -/
inductive Json where
  | null : Json
  | bool (b : Bool) : Json
  | num (n : Int) : Json
  | str (s : String) : Json
  | arr (elems : JsonArray) : Json
  | obj (fields : JsonObject) : Json
deriving DecidableEq
/-- A JSON array, as a specialised list so that all serializers are
structurally recursive (and hence kernel-computable). -/
inductive JsonArray where
  | nil : JsonArray
  | cons (hd : Json) (tl : JsonArray) : JsonArray
deriving DecidableEq
/-- A JSON object: an ordered association list of key/value fields. -/
inductive JsonObject where
  | nil : JsonObject
  | cons (key : String) (val : Json) (tl : JsonObject) : JsonObject
deriving DecidableEq
end

/-- Property lookup in a JSON object.  JavaScript objects produced by JSON
parsing keep the last occurrence of a duplicated key, so lookup prefers the
last match. -/
def JsonObject.find : JsonObject → String → Option Json
  | JsonObject.nil, _ => none
  | JsonObject.cons k v tl, key =>
    match JsonObject.find tl key with
    | some w => some w
    | none => if k = key then some v else none

/-- Property access data.key on an arbitrary JavaScript value: an object
yields the field when present, every other value yields undefined (none). -/
def Json.getField : Json → String → Option Json
  | Json.obj fields, key => fields.find key
  | _, _ => none

/-- Property access with undefined collapsed to null.  Used where the code
only ever tests truthiness of the value or coerces a value that was already
checked to be truthy, for which null and undefined behave identically. -/
def jsField (data : Json) (key : String) : Json :=
  (data.getField key).getD Json.null

/-- JavaScript truthiness of a value (NaN is unrepresentable here since
numbers are integers). -/
def jsTruthy : Json → Bool
  | Json.null => false
  | Json.bool b => b
  | Json.num n => decide (n ≠ 0)
  | Json.str s => decide (s ≠ "")
  | Json.arr _ => true
  | Json.obj _ => true

/-- Truthiness of data.key, with undefined (absent field) falsy. -/
def jsFieldTruthy (data : Json) (key : String) : Bool :=
  jsTruthy (jsField data key)

mutual
/-- The String(x) coercion JavaScript applies in new Error(x) and atob(x). -/
def jsStringCoerce : Json → String
  | Json.null => "null"
  | Json.bool true => "true"
  | Json.bool false => "false"
  | Json.num n => toString n
  | Json.str s => s
  | Json.arr xs => jsStringCoerceItems xs
  | Json.obj _ => "[object Object]"
/-- Array.prototype.toString: elements coerced (null rendering as the empty
string) and joined with commas. -/
def jsStringCoerceItems : JsonArray → String
  | JsonArray.nil => ""
  | JsonArray.cons x JsonArray.nil =>
    if x = Json.null then "" else jsStringCoerce x
  | JsonArray.cons x tl =>
    (if x = Json.null then "" else jsStringCoerce x) ++ "," ++ jsStringCoerceItems tl
end

/-- Hexadecimal digit character, for JSON string escapes of control
characters. -/
def hexDigitChar (n : Nat) : Char :=
  if n < 10 then Char.ofNat (48 + n) else Char.ofNat (87 + n)

/-- The escape JSON.stringify applies to one character of a string. -/
def jsonEscapeChar (c : Char) : List Char :=
  if c = '"' then ['\\', '"']
  else if c = '\\' then ['\\', '\\']
  else if c = '\n' then ['\\', 'n']
  else if c = '\r' then ['\\', 'r']
  else if c = '\t' then ['\\', 't']
  else if c.toNat = 8 then ['\\', 'b']
  else if c.toNat = 12 then ['\\', 'f']
  else if c.toNat < 32 then ['\\', 'u', '0', '0', hexDigitChar (c.toNat / 16), hexDigitChar (c.toNat % 16)]
  else [c]

/-- A JSON string literal: quotes around the escaped characters. -/
def jsonQuote (s : String) : String :=
  String.mk ('"' :: (s.data.map jsonEscapeChar).flatten ++ ['"'])

mutual
/-- JSON.stringify(x) without an indent argument (compact form), as used for
the request body JSON.stringify(\x7b query: textQuery \x7d). -/
def jsonStringifyCompact : Json → String
  | Json.null => "null"
  | Json.bool true => "true"
  | Json.bool false => "false"
  | Json.num n => toString n
  | Json.str s => jsonQuote s
  | Json.arr xs => "[" ++ jsonArrItemsCompact xs ++ "]"
  | Json.obj kvs => "\x7b" ++ jsonObjItemsCompact kvs ++ "\x7d"
/-- Comma-joined compact renderings of array elements. -/
def jsonArrItemsCompact : JsonArray → String
  | JsonArray.nil => ""
  | JsonArray.cons x JsonArray.nil => jsonStringifyCompact x
  | JsonArray.cons x tl => jsonStringifyCompact x ++ "," ++ jsonArrItemsCompact tl
/-- Comma-joined compact renderings of object fields. -/
def jsonObjItemsCompact : JsonObject → String
  | JsonObject.nil => ""
  | JsonObject.cons k v JsonObject.nil => jsonQuote k ++ ":" ++ jsonStringifyCompact v
  | JsonObject.cons k v tl =>
    jsonQuote k ++ ":" ++ jsonStringifyCompact v ++ "," ++ jsonObjItemsCompact tl
end

mutual
/-- JSON.stringify(x, null, 2): the pretty-printed dump used as the final
fallback of the text-path field resolution.  The second argument is the
indentation already in force for the line on which the value starts. -/
def jsonStringifyPretty : Json → String → String
  | Json.null, _ => "null"
  | Json.bool true, _ => "true"
  | Json.bool false, _ => "false"
  | Json.num n, _ => toString n
  | Json.str s, _ => jsonQuote s
  | Json.arr JsonArray.nil, _ => "[]"
  | Json.arr (JsonArray.cons x tl), ind =>
    "[\n" ++ jsonArrItemsPretty (JsonArray.cons x tl) (ind ++ "  ") ++ "\n" ++ ind ++ "]"
  | Json.obj JsonObject.nil, _ => "\x7b\x7d"
  | Json.obj (JsonObject.cons k v tl), ind =>
    "\x7b\n" ++ jsonObjItemsPretty (JsonObject.cons k v tl) (ind ++ "  ") ++ "\n" ++ ind ++ "\x7d"
/-- Lines of pretty-printed array elements, joined with comma-newline. -/
def jsonArrItemsPretty : JsonArray → String → String
  | JsonArray.nil, _ => ""
  | JsonArray.cons x JsonArray.nil, ind => ind ++ jsonStringifyPretty x ind
  | JsonArray.cons x tl, ind =>
    ind ++ jsonStringifyPretty x ind ++ ",\n" ++ jsonArrItemsPretty tl ind
/-- Lines of pretty-printed object fields, joined with comma-newline. -/
def jsonObjItemsPretty : JsonObject → String → String
  | JsonObject.nil, _ => ""
  | JsonObject.cons k v JsonObject.nil, ind => ind ++ jsonQuote k ++ ": " ++ jsonStringifyPretty v ind
  | JsonObject.cons k v tl, ind =>
    ind ++ jsonQuote k ++ ": " ++ jsonStringifyPretty v ind ++ ",\n" ++ jsonObjItemsPretty tl ind
end

/-- JSON.stringify(data, null, 2) at top level. -/
def jsonDump (data : Json) : String := jsonStringifyPretty data ""

/-! ## HTTP transport model -/

/-- The body of an HTTP response: either a body that res.json() parses to
the given value (res.text() then yields its compact serialization), or a
body that is not valid JSON, for which res.json() throws. -/
inductive HttpBody where
  | jsonBody (data : Json) : HttpBody
  | textBody (s : String) : HttpBody
deriving DecidableEq

/-- The result of await res.json(): none models the thrown SyntaxError. -/
def HttpBody.jsonParse : HttpBody → Option Json
  | HttpBody.jsonBody data => some data
  | HttpBody.textBody _ => none

/-- The result of await res.text(). -/
def HttpBody.rawText : HttpBody → String
  | HttpBody.jsonBody data => jsonStringifyCompact data
  | HttpBody.textBody s => s

/-- The transport-level view of a fetch Response consumed by the handlers:
status, statusText, the content-type header (none when absent) and the
body. -/
structure HttpResponse where
  status : Nat
  statusText : String
  contentType : Option String
  body : HttpBody
deriving DecidableEq

/-- Response.ok of the fetch API: a 2xx status. -/
def HttpResponse.ok (r : HttpResponse) : Bool :=
  decide (200 ≤ r.status) && decide (r.status ≤ 299)

/-- JavaScript String.prototype.includes for the content-type probe: the
character sequence of the pattern occurs contiguously in the string. -/
def stringIncludes (s pat : String) : Bool :=
  decide (pat.data <:+: s.data)

/-- JavaScript String.prototype.trim, restricted to the ASCII whitespace
characters Char.isWhitespace covers (space, tab, carriage return, line
feed); both guards below only ever compare the result against the empty
string. -/
def jsTrim (s : String) : String :=
  String.mk (((s.data.dropWhile Char.isWhitespace).reverse.dropWhile Char.isWhitespace).reverse)

/-! ## only-for-test.tsx: fetchEvents and handleSubmit -/

/-- Field-priority resolution of the text path (fetchEvents):
data.result ?? data.output ?? data.message ?? JSON.stringify(data, null, 2).
The nullish-coalescing probe skips a field whose value is null as well as an
absent field. -/
def jsonProbe (data : Json) (key : String) : Option Json :=
  match data.getField key with
  | some Json.null => none
  | some v => some v
  | none => none

/-- The value bound to the local variable text by fetchEvents on a JSON
response body. -/
def resolveTextMarkdown (data : Json) : Json :=
  match jsonProbe data "result" with
  | some v => v
  | none =>
    match jsonProbe data "output" with
    | some v => v
    | none =>
      match jsonProbe data "message" with
      | some v => v
      | none => Json.str (jsonDump data)

/-- The text fetchEvents extracts from a response: the field-priority
resolution when the declared content type includes application/json (none
when res.json() throws), the raw body otherwise. -/
def fetchEventsText (r : HttpResponse) : Option Json :=
  if stringIncludes (r.contentType.getD "") "application/json" then
    (r.body.jsonParse).map resolveTextMarkdown
  else some (Json.str r.body.rawText)

/-- Terminal outcome of a fetchEvents call once the response has arrived. -/
inductive FetchOutcome where
  | success (markdown : Json) : FetchOutcome
  | backendThrow (message : String) : FetchOutcome
  | jsonParseThrow : FetchOutcome
deriving DecidableEq

/-- Outcome of fetchEvents on a response: res.json() failure propagates as
an exception; a non-ok status throws new Error(text || "HTTP " + status);
otherwise the resolved text becomes the displayed markdown. -/
def fetchEventsOutcome (r : HttpResponse) : FetchOutcome :=
  match fetchEventsText r with
  | none => FetchOutcome.jsonParseThrow
  | some text =>
    if r.ok then FetchOutcome.success text
    else
      FetchOutcome.backendThrow
        (if jsTruthy text then jsStringCoerce text else "HTTP " ++ toString r.status)

/-- Displayed state of the minimal component: the markdown value and the
loading flag. -/
structure FetchState where
  markdown : Json
  isLoading : Bool
deriving DecidableEq

/-- State transition of one fetchEvents call: setLoading(true) and
setMarkdown("") happen before the request, every path then runs the finally
block setLoading(false). -/
def fetchEventsStep (r : HttpResponse) : FetchState :=
  match fetchEventsOutcome r with
  | FetchOutcome.success text => { markdown := text, isLoading := false }
  | FetchOutcome.backendThrow _ => { markdown := Json.str "", isLoading := false }
  | FetchOutcome.jsonParseThrow => { markdown := Json.str "", isLoading := false }

/-- handleSubmit: a blank (all-whitespace) input only shows a toast and
returns before invoking fetchEvents.  The Bool records whether fetchEvents
was invoked. -/
def handleSubmit (st : FetchState) (input : String) (r : HttpResponse) : FetchState × Bool :=
  if jsTrim input = "" then (st, false)
  else (fetchEventsStep r, true)

/-! ## agent.tsx: helpers -/

/-- Environment facts the capture preconditions read. -/
structure BrowserEnv where
  isSecureContext : Bool
  hostname : String
  hasGetUserMedia : Bool
  micPermission : String
deriving DecidableEq

/-- window.isSecureContext or a recognized local-development hostname. -/
def isSecureContextOrLocal (env : BrowserEnv) : Bool :=
  env.isSecureContext || (["localhost", "127.0.0.1"].contains env.hostname)

/-- Which preparatory step a startRecording call reaches: an early error
toast, or the getUserMedia device-access request. -/
inductive StartOutcome where
  | insecureContextError : StartOutcome
  | unsupportedError : StartOutcome
  | permissionDeniedError : StartOutcome
  | requestsUserMedia : StartOutcome
deriving DecidableEq

/-- startRecording of the voice-only component: insecure context, missing
getUserMedia and a denied microphone permission each return early, in that
order, before the getUserMedia call. -/
def startRecordingVoiceOnly (env : BrowserEnv) : StartOutcome :=
  if !(isSecureContextOrLocal env) then StartOutcome.insecureContextError
  else if !env.hasGetUserMedia then StartOutcome.unsupportedError
  else if env.micPermission = "denied" then StartOutcome.permissionDeniedError
  else StartOutcome.requestsUserMedia

/-- startRecording of the unified component: it checks getUserMedia support
and the microphone permission but has no secure-context guard (the
component only shows a warning toast at mount time). -/
def startRecordingUnified (env : BrowserEnv) : StartOutcome :=
  if !env.hasGetUserMedia then StartOutcome.unsupportedError
  else if env.micPermission = "denied" then StartOutcome.permissionDeniedError
  else StartOutcome.requestsUserMedia

/-- A Blob: its byte contents and its MIME type. -/
structure JsBlob where
  bytes : List Nat
  type : String
deriving DecidableEq

/-- Effects of the recorder.onstop handler (identical in both component
variants): whether the empty-recording error toast fired, the blob handed
to sendAudio when one was sent, and whether the hardware tracks of the
stream were stopped. -/
structure OnStopEffects where
  emptyRecordingError : Bool
  sentBlob : Option JsBlob
  tracksStopped : Bool
deriving DecidableEq

/-- recorder.onstop: concatenate the accumulated chunks into one blob; an
empty blob returns early with a toast, otherwise the blob goes to sendAudio
and the tracks of the stream are stopped afterwards. -/
def recorderOnStop (chunks : List (List Nat)) (mimeType : String) : OnStopEffects :=
  let blobBytes := chunks.flatten
  if blobBytes.length = 0 then
    { emptyRecordingError := true, sentBlob := none, tracksStopped := false }
  else
    { emptyRecordingError := false
      sentBlob := some { bytes := blobBytes, type := mimeType }
      tracksStopped := true }

/-! ## agent.tsx: base64 decoding (base64ToBlob and the atob builtin) -/

/-- The base64 alphabet in index order. -/
def base64Alphabet : List Char :=
  "ABCDEFGHIJKLMNOPQRSTUVWXYZabcdefghijklmnopqrstuvwxyz0123456789+/".data

/-- The alphabet character of a 6-bit group. -/
def base64Char (n : Nat) : Char := base64Alphabet.getD n 'A'

/-- The 6-bit value of an alphabet character; none for a character outside
the alphabet (atob then throws). -/
def base64CharIndex (c : Char) : Option Nat :=
  let i := base64Alphabet.indexOf c
  if i < 64 then some i else none

/-- Modelled from the spec: the backend-side standard base64 encoder (RFC
4648 with padding) producing the audio_b64 payload is not part of this
repository; this reference encoder is the function the left-inverse claim
quantifies the decoder against.  Three input bytes become four alphabet
characters; a final group of one or two bytes is padded with one or two
equals signs. -/
def base64EncodeChunks : List Nat → List Char
  | [] => []
  | [a] => [base64Char (a / 4), base64Char (a % 4 * 16), '=', '=']
  | [a, b] => [base64Char (a / 4), base64Char (a % 4 * 16 + b / 16), base64Char (b % 16 * 4), '=']
  | a :: b :: d :: rest =>
    base64Char (a / 4) :: base64Char (a % 4 * 16 + b / 16) ::
      base64Char (b % 16 * 4 + d / 64) :: base64Char (d % 64) :: base64EncodeChunks rest

/-- Modelled from the spec: the backend-side base64 encoding of a byte
buffer, as a string. -/
def base64Encode (bytes : List Nat) : String := String.mk (base64EncodeChunks bytes)

/-- One four-character base64 group decoded to one, two or three bytes;
none models the InvalidCharacterError of atob. -/
def base64DecodeGroup (c1 c2 c3 c4 : Char) : Option (List Nat) :=
  (base64CharIndex c1).bind fun w =>
    (base64CharIndex c2).bind fun x =>
      if c3 = '=' then
        if c4 = '=' then some [w * 4 + x / 16] else none
      else
        (base64CharIndex c3).bind fun y =>
          if c4 = '=' then some [w * 4 + x / 16, x % 16 * 16 + y / 4]
          else
            (base64CharIndex c4).bind fun z =>
              some [w * 4 + x / 16, x % 16 * 16 + y / 4, y % 4 * 64 + z]

/-- atob on a character list: groups of four, padding only allowed in the
final group, any other length invalid. -/
def base64DecodeChunks : List Char → Option (List Nat)
  | [] => some []
  | c1 :: c2 :: c3 :: c4 :: rest =>
    (base64DecodeGroup c1 c2 c3 c4).bind fun bs =>
      if (c3 = '=' ∨ c4 = '=') ∧ rest ≠ [] then none
      else (base64DecodeChunks rest).map fun tail => bs ++ tail
  | _ => none

/-- The atob builtin: the byte values (char codes) of the binary string it
returns, none when it throws.  Whitespace tolerance of the platform atob is
not modelled; no theorem feeds it whitespace. -/
def atobBytes (s : String) : Option (List Nat) := base64DecodeChunks s.data

/-- The characters JavaScript base64.split(",")[1] selects: everything
strictly between the first and the second comma. -/
def splitCommaSecond (cs : List Char) : List Char :=
  ((cs.dropWhile (fun c => c ≠ ',')).drop 1).takeWhile (fun c => c ≠ ',')

/-- base64ToBlob of agent.tsx: strip a data-URI header (everything up to
the first comma) when a comma is present, atob-decode, and package the
bytes with the given MIME type (the source defaults the type to
application/octet-stream; every call site passes it explicitly).  none
models the exception atob throws on invalid input. -/
def base64ToBlob (base64 : String) (mime : String) : Option JsBlob :=
  let cs := base64.data
  let dataPart := if cs.contains ',' then splitCommaSecond cs else cs
  (base64DecodeChunks dataPart).map fun bytes => { bytes := bytes, type := mime }

/-! ## agent.tsx: the exchange unit (sendAudio / sendText response handling) -/

/-- What the shared response-handling code of sendAudio and sendText does
with a response: hand the parsed body to handleBackendJson, throw the
backend error of the non-ok branch, or propagate the exception of a failed
res.json(). -/
inductive SendOutcome where
  | handled (data : Json) : SendOutcome
  | backendThrow (message : String) : SendOutcome
  | jsonParseThrow : SendOutcome
deriving DecidableEq

/-- sendAudio and sendText both run:
const data = await res.json();
if (!res.ok) throw new Error(data?.error || res.statusText).
The body is parsed before the status check, so a non-JSON error body
surfaces as the parse exception, and the thrown message falls back to the
statusText whenever the error field is absent or falsy. -/
def sendResponseOutcome (r : HttpResponse) : SendOutcome :=
  match r.body.jsonParse with
  | none => SendOutcome.jsonParseThrow
  | some data =>
    if r.ok then SendOutcome.handled data
    else
      SendOutcome.backendThrow
        (match data.getField "error" with
         | some v => if jsTruthy v then jsStringCoerce v else r.statusText
         | none => r.statusText)

/-- Displayed state of the unified component that the exchange unit
touches: the markdown value, the decoded audio behind the object URL (none
models audioUrl = ""), and the loading flag. -/
structure AgentState where
  markdown : Json
  audio : Option JsBlob
  isLoading : Bool
deriving DecidableEq

/-- The MIME type handleBackendJson selects: data.mime || "audio/mpeg". -/
def responseMime (data : Json) : String :=
  if jsFieldTruthy data "mime" then jsStringCoerce (jsField data "mime") else "audio/mpeg"

/-- handleBackendJson of the unified component: a truthy data.text replaces
the markdown; a truthy data.audio_b64 is decoded and replaces the audio
(revoking the previous object URL).  The Bool is true when base64ToBlob
threw, which happens after the markdown update and propagates to the catch
of the caller. -/
def handleBackendJson (st : AgentState) (data : Json) : AgentState × Bool :=
  let st1 :=
    if jsFieldTruthy data "text" then { st with markdown := jsField data "text" } else st
  if jsFieldTruthy data "audio_b64" then
    match base64ToBlob (jsStringCoerce (jsField data "audio_b64")) (responseMime data) with
    | some blob => ({ st1 with audio := some blob }, false)
    | none => (st1, true)
  else (st1, false)

/-- State transition of the response phase shared by sendAudio and
sendText: setLoading(true) and setAudioUrl("") run before the fetch, the
catch block only shows a toast, and the finally block runs
setLoading(false) on every path.  The Bool is true when the attempt failed
(the catch block ran). -/
def sendStep (st : AgentState) (r : HttpResponse) : AgentState × Bool :=
  let st0 : AgentState := { st with isLoading := true, audio := none }
  let result :=
    match sendResponseOutcome r with
    | SendOutcome.handled data => handleBackendJson st0 data
    | SendOutcome.backendThrow _ => (st0, true)
    | SendOutcome.jsonParseThrow => (st0, true)
  ({ result.1 with isLoading := false }, result.2)

/-- The body of a request: a raw string (JSON text) or multipart form
fields, each a named blob with a filename. -/
inductive RequestBody where
  | stringBody (s : String) : RequestBody
  | formDataBody (fields : List (String × JsBlob × String)) : RequestBody
deriving DecidableEq

/-- The wire shape of a request to the backend endpoint. -/
structure HttpRequest where
  method : String
  contentType : Option String
  body : RequestBody
deriving DecidableEq

/-- The request sendText issues: POST, a JSON content-type header, and the
serialized one-field object built by JSON.stringify on the query object. -/
def sendTextRequest (textQuery : String) : HttpRequest :=
  { method := "POST"
    contentType := some "application/json"
    body := RequestBody.stringBody
      (jsonStringifyCompact (Json.obj (JsonObject.cons "query" (Json.str textQuery) JsonObject.nil))) }

/-- The request sendAudio issues: POST with a FormData body holding the
single field audio carrying the blob under the filename recording.webm (no
explicit content-type header; the browser supplies the multipart one). -/
def sendAudioRequest (blob : JsBlob) : HttpRequest :=
  { method := "POST"
    contentType := none
    body := RequestBody.formDataBody [("audio", blob, "recording.webm")] }

/-- sendText from the top: a blank (all-whitespace) textQuery only shows a
toast and returns before any state change or request; otherwise the request
goes out and the response is handled by sendStep.  Yields the final state,
the request that was issued (none when rejected locally) and whether the
attempt failed. -/
def sendTextStep (st : AgentState) (textQuery : String) (r : HttpResponse) :
    AgentState × Option HttpRequest × Bool :=
  if jsTrim textQuery = "" then (st, none, false)
  else ((sendStep st r).1, some (sendTextRequest textQuery), (sendStep st r).2)

/-- sendAudio from the top (the blob always comes from a non-empty
recording, checked by recorder.onstop). -/
def sendAudioStep (st : AgentState) (blob : JsBlob) (r : HttpResponse) :
    AgentState × Option HttpRequest × Bool :=
  ((sendStep st r).1, some (sendAudioRequest blob), (sendStep st r).2)

/-! ## Lemmas: base64 decoding is a left inverse of encoding -/

theorem base64CharIndex_base64Char : ∀ n, n < 64 → base64CharIndex (base64Char n) = some n := by
  decide

theorem base64Char_ne_pad : ∀ n, n < 64 → base64Char n ≠ '=' := by
  decide

theorem base64Char_ne_comma : ∀ n, n < 64 → base64Char n ≠ ',' := by
  decide

theorem base64_decode_encode_chunks : ∀ bytes : List Nat, (∀ x ∈ bytes, x < 256) →
    base64DecodeChunks (base64EncodeChunks bytes) = some bytes := by
  intro bytes h
  induction bytes using base64EncodeChunks.induct with
  | case1 => rfl
  | case2 a =>
    have ha : a < 256 := h a (by simp)
    have h1 : a / 4 < 64 := by omega
    have h2 : a % 4 * 16 < 64 := by omega
    simp [base64EncodeChunks, base64DecodeChunks, base64DecodeGroup,
      base64CharIndex_base64Char _ h1, base64CharIndex_base64Char _ h2]
    omega
  | case3 a b =>
    have ha : a < 256 := h a (by simp)
    have hb : b < 256 := h b (by simp)
    have h1 : a / 4 < 64 := by omega
    have h2 : a % 4 * 16 + b / 16 < 64 := by omega
    have h3 : b % 16 * 4 < 64 := by omega
    have n3 := base64Char_ne_pad _ h3
    simp [base64EncodeChunks, base64DecodeChunks, base64DecodeGroup,
      base64CharIndex_base64Char _ h1, base64CharIndex_base64Char _ h2,
      base64CharIndex_base64Char _ h3, n3]
    omega
  | case4 a b d rest ih =>
    have ha : a < 256 := h a (by simp)
    have hb : b < 256 := h b (by simp)
    have hd : d < 256 := h d (by simp)
    have hrest : ∀ x ∈ rest, x < 256 := fun x hx => h x (by simp [hx])
    have h1 : a / 4 < 64 := by omega
    have h2 : a % 4 * 16 + b / 16 < 64 := by omega
    have h3 : b % 16 * 4 + d / 64 < 64 := by omega
    have h4 : d % 64 < 64 := by omega
    have n3 := base64Char_ne_pad _ h3
    have n4 := base64Char_ne_pad _ h4
    simp [base64EncodeChunks, base64DecodeChunks, base64DecodeGroup,
      base64CharIndex_base64Char _ h1, base64CharIndex_base64Char _ h2,
      base64CharIndex_base64Char _ h3, base64CharIndex_base64Char _ h4,
      n3, n4, ih hrest]
    omega

theorem comma_not_mem_base64EncodeChunks : ∀ bytes : List Nat, (∀ x ∈ bytes, x < 256) →
    ',' ∉ base64EncodeChunks bytes := by
  intro bytes h
  induction bytes using base64EncodeChunks.induct with
  | case1 => simp [base64EncodeChunks]
  | case2 a =>
    have ha : a < 256 := h a (by simp)
    have h1 : a / 4 < 64 := by omega
    have h2 : a % 4 * 16 < 64 := by omega
    have n1 := (base64Char_ne_comma _ h1).symm
    have n2 := (base64Char_ne_comma _ h2).symm
    simp [base64EncodeChunks, n1, n2]
  | case3 a b =>
    have ha : a < 256 := h a (by simp)
    have hb : b < 256 := h b (by simp)
    have h1 : a / 4 < 64 := by omega
    have h2 : a % 4 * 16 + b / 16 < 64 := by omega
    have h3 : b % 16 * 4 < 64 := by omega
    have n1 := (base64Char_ne_comma _ h1).symm
    have n2 := (base64Char_ne_comma _ h2).symm
    have n3 := (base64Char_ne_comma _ h3).symm
    simp [base64EncodeChunks, n1, n2, n3]
  | case4 a b d rest ih =>
    have ha : a < 256 := h a (by simp)
    have hb : b < 256 := h b (by simp)
    have hd : d < 256 := h d (by simp)
    have hrest : ∀ x ∈ rest, x < 256 := fun x hx => h x (by simp [hx])
    have h1 : a / 4 < 64 := by omega
    have h2 : a % 4 * 16 + b / 16 < 64 := by omega
    have h3 : b % 16 * 4 + d / 64 < 64 := by omega
    have h4 : d % 64 < 64 := by omega
    have n1 := (base64Char_ne_comma _ h1).symm
    have n2 := (base64Char_ne_comma _ h2).symm
    have n3 := (base64Char_ne_comma _ h3).symm
    have n4 := (base64Char_ne_comma _ h4).symm
    simp [base64EncodeChunks, n1, n2, n3, n4, ih hrest]

theorem dropWhile_to_first_comma (pre rest : List Char) (h : ',' ∉ pre) :
    (pre ++ ',' :: rest).dropWhile (fun c => c ≠ ',') = ',' :: rest := by
  induction pre with
  | nil => simp [List.dropWhile_cons]
  | cons c pre ih =>
    have hc : c ≠ ',' := fun hc => h (by simp [hc])
    have hpre : ',' ∉ pre := fun hm => h (by simp [hm])
    simp only [List.cons_append, List.dropWhile_cons]
    rw [if_pos (by simpa using hc), ih hpre]

theorem takeWhile_no_comma (l : List Char) (h : ',' ∉ l) :
    l.takeWhile (fun c => c ≠ ',') = l := by
  induction l with
  | nil => rfl
  | cons c l ih =>
    have hc : c ≠ ',' := fun hc => h (by simp [hc])
    have hl : ',' ∉ l := fun hm => h (by simp [hm])
    rw [List.takeWhile_cons, if_pos (by simpa using hc), ih hl]

theorem base64ToBlob_of_encode (bytes : List Nat) (h : ∀ x ∈ bytes, x < 256) (mime : String) :
    base64ToBlob (base64Encode bytes) mime = some { bytes := bytes, type := mime } := by
  have hmem := comma_not_mem_base64EncodeChunks bytes h
  have hcont : (base64EncodeChunks bytes).contains ',' = false := by simpa using hmem
  unfold base64ToBlob base64Encode
  simp only [hcont]
  rw [if_neg (by simp)]
  rw [base64_decode_encode_chunks bytes h]
  rfl

theorem base64ToBlob_of_encode_data_uri (bytes : List Nat) (h : ∀ x ∈ bytes, x < 256)
    (mime : String) (header : String) (hheader : ',' ∉ header.data) :
    base64ToBlob (header ++ "," ++ base64Encode bytes) mime = some { bytes := bytes, type := mime } := by
  have hmem := comma_not_mem_base64EncodeChunks bytes h
  have hdata : (header ++ "," ++ base64Encode bytes).data = header.data ++ ',' :: base64EncodeChunks bytes := by
    rw [String.data_append, String.data_append]
    rw [List.append_assoc]
    rfl
  unfold base64ToBlob
  rw [hdata]
  have hcont : (header.data ++ ',' :: base64EncodeChunks bytes).contains ',' = true := by
    simp
  simp only [hcont, if_true]
  unfold splitCommaSecond
  rw [dropWhile_to_first_comma _ _ hheader]
  simp only [List.drop_succ_cons, List.drop_zero]
  rw [takeWhile_no_comma _ hmem]
  rw [base64_decode_encode_chunks bytes h]
  rfl

/-! ## Lemmas: handleBackendJson and sendStep -/

theorem handleBackendJson_markdown (st : AgentState) (data : Json) :
    (handleBackendJson st data).1.markdown =
      if jsFieldTruthy data "text" then jsField data "text" else st.markdown := by
  unfold handleBackendJson
  cases haud : jsFieldTruthy data "audio_b64"
  · cases htext : jsFieldTruthy data "text" <;> simp [haud, htext]
  · cases hdec : base64ToBlob (jsStringCoerce (jsField data "audio_b64")) (responseMime data) <;>
      cases htext : jsFieldTruthy data "text" <;> simp [haud, htext, hdec]

theorem handleBackendJson_audio (st : AgentState) (data : Json) :
    (handleBackendJson st data).1.audio =
      if jsFieldTruthy data "audio_b64" then
        match base64ToBlob (jsStringCoerce (jsField data "audio_b64")) (responseMime data) with
        | some blob => some blob
        | none => st.audio
      else st.audio := by
  unfold handleBackendJson
  cases haud : jsFieldTruthy data "audio_b64"
  · cases htext : jsFieldTruthy data "text" <;> simp [haud, htext]
  · cases hdec : base64ToBlob (jsStringCoerce (jsField data "audio_b64")) (responseMime data) <;>
      cases htext : jsFieldTruthy data "text" <;> simp [haud, htext, hdec]

theorem handleBackendJson_threw (st : AgentState) (data : Json) :
    (handleBackendJson st data).2 = true ↔
      (jsFieldTruthy data "audio_b64" = true ∧
        base64ToBlob (jsStringCoerce (jsField data "audio_b64")) (responseMime data) = none) := by
  unfold handleBackendJson
  cases haud : jsFieldTruthy data "audio_b64"
  · simp [haud]
  · cases hdec : base64ToBlob (jsStringCoerce (jsField data "audio_b64")) (responseMime data) <;>
      simp [haud, hdec]

theorem sendStep_of_handled (st : AgentState) (r : HttpResponse) (data : Json)
    (h : sendResponseOutcome r = SendOutcome.handled data) :
    sendStep st r =
      ({ (handleBackendJson { st with isLoading := true, audio := none } data).1 with
          isLoading := false },
        (handleBackendJson { st with isLoading := true, audio := none } data).2) := by
  unfold sendStep
  rw [h]

theorem sendStep_of_backendThrow (st : AgentState) (r : HttpResponse) (m : String)
    (h : sendResponseOutcome r = SendOutcome.backendThrow m) :
    sendStep st r = ({ st with audio := none, isLoading := false }, true) := by
  unfold sendStep
  rw [h]

theorem sendStep_of_parseThrow (st : AgentState) (r : HttpResponse)
    (h : sendResponseOutcome r = SendOutcome.jsonParseThrow) :
    sendStep st r = ({ st with audio := none, isLoading := false }, true) := by
  unfold sendStep
  rw [h]

/-! ## Claims -/

/-- C1: for every JSON success response on the text path, the resolved
markdown is the value of the field result when present, otherwise output,
otherwise message, otherwise the pretty-printed JSON dump of the whole
response object; in particular the result/output pair resolves to the
result value, the output/message pair resolves to the output value, and
the empty object resolves to the pretty-printed dump. -/
theorem fetchEvents_field_priority_resolution (data : Json) :
    (∀ s, data.getField "result" = some (Json.str s) → resolveTextMarkdown data = Json.str s)
  ∧ (data.getField "result" = none → ∀ s, data.getField "output" = some (Json.str s) →
      resolveTextMarkdown data = Json.str s)
  ∧ (data.getField "result" = none → data.getField "output" = none →
      ∀ s, data.getField "message" = some (Json.str s) → resolveTextMarkdown data = Json.str s)
  ∧ (data.getField "result" = none → data.getField "output" = none →
      data.getField "message" = none → resolveTextMarkdown data = Json.str (jsonDump data))
  ∧ (∀ r : HttpResponse, r.ok = true →
      stringIncludes (r.contentType.getD "") "application/json" = true →
      r.body.jsonParse = some data →
      fetchEventsOutcome r = FetchOutcome.success (resolveTextMarkdown data))
  ∧ resolveTextMarkdown (Json.obj (JsonObject.cons "result" (Json.str "A")
      (JsonObject.cons "output" (Json.str "B") JsonObject.nil))) = Json.str "A"
  ∧ resolveTextMarkdown (Json.obj (JsonObject.cons "output" (Json.str "B")
      (JsonObject.cons "message" (Json.str "C") JsonObject.nil))) = Json.str "B"
  ∧ resolveTextMarkdown (Json.obj JsonObject.nil) = Json.str (jsonDump (Json.obj JsonObject.nil)) := by
  refine ⟨?_, ?_, ?_, ?_, ?_, rfl, rfl, rfl⟩
  · intro s hs
    simp [resolveTextMarkdown, jsonProbe, hs]
  · intro h1 s hs
    simp [resolveTextMarkdown, jsonProbe, h1, hs]
  · intro h1 h2 s hs
    simp [resolveTextMarkdown, jsonProbe, h1, h2, hs]
  · intro h1 h2 h3
    simp [resolveTextMarkdown, jsonProbe, h1, h2, h3]
  · intro r hok hct hparse
    simp [fetchEventsOutcome, fetchEventsText, hct, hparse, hok]

/-- C1 witness: concrete instantiation of the priority resolution. -/
theorem fetchEvents_field_priority_resolution_witness :
    resolveTextMarkdown (Json.obj (JsonObject.cons "result" (Json.str "A") JsonObject.nil)) =
      Json.str "A" :=
  (fetchEvents_field_priority_resolution
    (Json.obj (JsonObject.cons "result" (Json.str "A") JsonObject.nil))).1 "A" rfl

/-- C2 counterexample: on the fetchEvents path a non-2xx JSON response with
body consisting of the single field error = "bad request" does not throw an
error with message "bad request"; the thrown message is the pretty-printed
dump of the whole body, because fetchEvents never consults the error field. -/
theorem fetchEvents_error_message_counterexample :
    fetchEventsOutcome
      { status := 400, statusText := "Bad Request",
        contentType := some "application/json",
        body := HttpBody.jsonBody
          (Json.obj (JsonObject.cons "error" (Json.str "bad request") JsonObject.nil)) } ≠
      FetchOutcome.backendThrow "bad request" ∧
    fetchEventsOutcome
      { status := 400, statusText := "Bad Request",
        contentType := some "application/json",
        body := HttpBody.jsonBody
          (Json.obj (JsonObject.cons "error" (Json.str "bad request") JsonObject.nil)) } =
      FetchOutcome.backendThrow "\x7b\n  \"error\": \"bad request\"\n\x7d" := by
  exact ⟨by decide, rfl⟩

/-- C2 amended: sendAudio and sendText throw, for a non-2xx response whose
body parses as JSON, an error whose message is the error field of the body
when present and truthy and the statusText otherwise (a body that is not
JSON surfaces as the res.json() exception instead, so no raw-body fallback
exists on this path); fetchEvents throws an error whose message is the
resolved markdown text of the body, falling back to "HTTP " and the status
when that text is falsy, and never consults the error field. -/
theorem backend_error_message_amended (r : HttpResponse) (data : Json)
    (hok : r.ok = false) (hparse : r.body.jsonParse = some data) :
    (∀ v, data.getField "error" = some v → jsTruthy v = true →
      sendResponseOutcome r = SendOutcome.backendThrow (jsStringCoerce v))
  ∧ (data.getField "error" = none →
      sendResponseOutcome r = SendOutcome.backendThrow r.statusText)
  ∧ (∀ v, data.getField "error" = some v → jsTruthy v = false →
      sendResponseOutcome r = SendOutcome.backendThrow r.statusText)
  ∧ (stringIncludes (r.contentType.getD "") "application/json" = true →
      fetchEventsOutcome r = FetchOutcome.backendThrow
        (if jsTruthy (resolveTextMarkdown data) then jsStringCoerce (resolveTextMarkdown data)
         else "HTTP " ++ toString r.status)) := by
  refine ⟨?_, ?_, ?_, ?_⟩
  · intro v hv htr
    simp [sendResponseOutcome, hparse, hok, hv, htr]
  · intro hnone
    simp [sendResponseOutcome, hparse, hok, hnone]
  · intro v hv htr
    simp [sendResponseOutcome, hparse, hok, hv, htr]
  · intro hct
    simp [fetchEventsOutcome, fetchEventsText, hct, hparse, hok]

/-- C2 witness: the agent paths do yield the error-field message on a
non-2xx response carrying error = "bad request". -/
theorem backend_error_message_amended_witness :
    sendResponseOutcome
      { status := 400, statusText := "Bad Request",
        contentType := some "application/json",
        body := HttpBody.jsonBody
          (Json.obj (JsonObject.cons "error" (Json.str "bad request") JsonObject.nil)) } =
      SendOutcome.backendThrow "bad request" :=
  (backend_error_message_amended
    { status := 400, statusText := "Bad Request",
      contentType := some "application/json",
      body := HttpBody.jsonBody
        (Json.obj (JsonObject.cons "error" (Json.str "bad request") JsonObject.nil)) }
    (Json.obj (JsonObject.cons "error" (Json.str "bad request") JsonObject.nil))
    (by decide) rfl).1 (Json.str "bad request") rfl (by decide)

/-- C3 counterexample: stopping a recording whose accumulated chunks
concatenate to zero bytes takes the early return of recorder.onstop, so the
hardware tracks of the stream are not stopped on that failing path, contrary
to the unconditional release the claim states. -/
theorem stopCapture_track_release_counterexample :
    (recorderOnStop [] "audio/webm").emptyRecordingError = true ∧
    (recorderOnStop [] "audio/webm").tracksStopped = false :=
  ⟨rfl, rfl⟩

/-- C3 amended: recorder.onstop releases the hardware tracks of the stream
exactly when the concatenated recording is non-empty; the empty-recording
early return skips the release (equivalently, tracks are released iff the
empty-recording error did not fire). -/
theorem stopCapture_track_release_amended (chunks : List (List Nat)) (mimeType : String) :
    (recorderOnStop chunks mimeType).tracksStopped = !(chunks.flatten.isEmpty) ∧
    (recorderOnStop chunks mimeType).tracksStopped =
      !(recorderOnStop chunks mimeType).emptyRecordingError := by
  rcases hfl : chunks.flatten with _ | ⟨x, l⟩
  · simp [recorderOnStop, hfl]
  · simp [recorderOnStop, hfl]

/-- C4 counterexample: in the unified component, a startRecording call in a
context where isSecureContextOrLocal is false does not fail with the
insecure-context error; it proceeds to the getUserMedia device-access
request, because that variant has no secure-context guard. -/
theorem startRecording_insecure_context_counterexample :
    isSecureContextOrLocal
      { isSecureContext := false, hostname := "example.com",
        hasGetUserMedia := true, micPermission := "prompt" } = false ∧
    startRecordingUnified
      { isSecureContext := false, hostname := "example.com",
        hasGetUserMedia := true, micPermission := "prompt" } =
      StartOutcome.requestsUserMedia := by
  exact ⟨by decide, rfl⟩

/-- C4 amended: when isSecureContextOrLocal is false, startRecording of the
voice-only component fails immediately with the insecure-context error and
never reaches getUserMedia; startRecording of the unified component
performs no such guard and (given getUserMedia support and a permission
other than denied) issues the device-access request anyway. -/
theorem startRecording_insecure_context_amended (env : BrowserEnv)
    (h : isSecureContextOrLocal env = false) :
    startRecordingVoiceOnly env = StartOutcome.insecureContextError ∧
    (env.hasGetUserMedia = true → env.micPermission ≠ "denied" →
      startRecordingUnified env = StartOutcome.requestsUserMedia) := by
  constructor
  · simp [startRecordingVoiceOnly, h]
  · intro hg hp
    simp [startRecordingUnified, hg, hp]

/-- C4 witness: concrete insecure environment exercising both conjuncts. -/
theorem startRecording_insecure_context_amended_witness :
    startRecordingVoiceOnly
      { isSecureContext := false, hostname := "example.com",
        hasGetUserMedia := true, micPermission := "prompt" } =
      StartOutcome.insecureContextError ∧
    startRecordingUnified
      { isSecureContext := false, hostname := "example.com",
        hasGetUserMedia := true, micPermission := "prompt" } =
      StartOutcome.requestsUserMedia :=
  ⟨(startRecording_insecure_context_amended
      { isSecureContext := false, hostname := "example.com",
        hasGetUserMedia := true, micPermission := "prompt" } (by decide)).1,
   (startRecording_insecure_context_amended
      { isSecureContext := false, hostname := "example.com",
        hasGetUserMedia := true, micPermission := "prompt" } (by decide)).2 rfl (by decide)⟩

/-- C5: base64ToBlob is a left inverse of base64 encoding: applied to the
encoding of any byte buffer it returns exactly the original byte sequence,
both for the bare encoding and for the encoding preceded by a data-URI
header ending in the comma. -/
theorem base64ToBlob_left_inverse (bytes : List Nat) (h : ∀ x ∈ bytes, x < 256)
    (mime : String) (header : String) (hheader : ',' ∉ header.data) :
    base64ToBlob (base64Encode bytes) mime = some { bytes := bytes, type := mime } ∧
    base64ToBlob (header ++ "," ++ base64Encode bytes) mime =
      some { bytes := bytes, type := mime } :=
  ⟨base64ToBlob_of_encode bytes h mime,
   base64ToBlob_of_encode_data_uri bytes h mime header hheader⟩

/-- C5 witness: the bytes of "Hello" survive the round trip with and
without a data-URI header. -/
theorem base64ToBlob_left_inverse_witness :
    base64ToBlob (base64Encode [72, 101, 108, 108, 111]) "audio/mpeg" =
      some { bytes := [72, 101, 108, 108, 111], type := "audio/mpeg" } ∧
    base64ToBlob ("data:audio/mpeg;base64" ++ "," ++ base64Encode [72, 101, 108, 108, 111])
        "audio/mpeg" =
      some { bytes := [72, 101, 108, 108, 111], type := "audio/mpeg" } :=
  base64ToBlob_left_inverse [72, 101, 108, 108, 111] (by decide) "audio/mpeg"
    "data:audio/mpeg;base64" (by decide)

/-- C6: a recording whose accumulated chunks concatenate to a zero-length
buffer makes recorder.onstop fire the empty-recording error and return
before invoking sendAudio. -/
theorem empty_recording_rejected_no_send (chunks : List (List Nat)) (mimeType : String)
    (h : chunks.flatten = []) :
    (recorderOnStop chunks mimeType).emptyRecordingError = true ∧
    (recorderOnStop chunks mimeType).sentBlob = none := by
  simp [recorderOnStop, h]

/-- C6 witness: the empty chunk list. -/
theorem empty_recording_rejected_no_send_witness :
    (recorderOnStop [] "audio/webm").emptyRecordingError = true ∧
    (recorderOnStop [] "audio/webm").sentBlob = none :=
  empty_recording_rejected_no_send [] "audio/webm" rfl

/-- C7: for every non-blank text input, sendText issues a POST with the
JSON content-type marker whose body is the serialization of the object
holding the single top-level field query bound to the input text, and
nothing else. -/
theorem sendText_request_shape (st : AgentState) (textQuery : String) (r : HttpResponse)
    (h : jsTrim textQuery ≠ "") :
    (sendTextStep st textQuery r).2.1 = some (sendTextRequest textQuery) ∧
    (sendTextRequest textQuery).method = "POST" ∧
    (sendTextRequest textQuery).contentType = some "application/json" ∧
    (sendTextRequest textQuery).body = RequestBody.stringBody
      (jsonStringifyCompact
        (Json.obj (JsonObject.cons "query" (Json.str textQuery) JsonObject.nil))) ∧
    (sendTextRequest textQuery).body = RequestBody.stringBody
      ("\x7b" ++ jsonQuote "query" ++ ":" ++ jsonQuote textQuery ++ "\x7d") := by
  refine ⟨?_, rfl, rfl, rfl, ?_⟩
  · simp [sendTextStep, h]
  · show RequestBody.stringBody
      ("\x7b" ++ (jsonQuote "query" ++ ":" ++ jsonQuote textQuery) ++ "\x7d") = _
    congr 1

/-- C7 witness: the concrete input "hi" produces exactly the one-field JSON
body. -/
theorem sendText_request_shape_witness :
    (sendTextStep { markdown := Json.str "", audio := none, isLoading := false } "hi"
      { status := 200, statusText := "OK", contentType := some "application/json",
        body := HttpBody.jsonBody (Json.obj JsonObject.nil) }).2.1 =
      some (sendTextRequest "hi") ∧
    (sendTextRequest "hi").body = RequestBody.stringBody "\x7b\"query\":\"hi\"\x7d" :=
  ⟨(sendText_request_shape { markdown := Json.str "", audio := none, isLoading := false } "hi"
      { status := 200, statusText := "OK", contentType := some "application/json",
        body := HttpBody.jsonBody (Json.obj JsonObject.nil) } (by decide)).1,
   (sendText_request_shape { markdown := Json.str "", audio := none, isLoading := false } "hi"
      { status := 200, statusText := "OK", contentType := some "application/json",
        body := HttpBody.jsonBody (Json.obj JsonObject.nil) } (by decide)).2.2.2.1⟩

/-- C8 counterexample: an attempt can fail after handleBackendJson has
already applied the text field (the audio_b64 decode throws), so a failed
send attempt does not always leave the previously displayed markdown
untouched: with prior markdown "old", a 2xx response carrying text "new"
and an undecodable audio_b64 fails the attempt yet replaces the markdown. -/
theorem send_failure_frame_counterexample :
    (sendStep { markdown := Json.str "old", audio := none, isLoading := false }
      { status := 200, statusText := "OK", contentType := some "application/json",
        body := HttpBody.jsonBody (Json.obj (JsonObject.cons "text" (Json.str "new")
          (JsonObject.cons "audio_b64" (Json.str "%") JsonObject.nil))) }).2 = true ∧
    (sendStep { markdown := Json.str "old", audio := none, isLoading := false }
      { status := 200, statusText := "OK", contentType := some "application/json",
        body := HttpBody.jsonBody (Json.obj (JsonObject.cons "text" (Json.str "new")
          (JsonObject.cons "audio_b64" (Json.str "%") JsonObject.nil))) }).1.markdown =
      Json.str "new" ∧
    Json.str "new" ≠ Json.str "old" := by
  exact ⟨rfl, rfl, by decide⟩

/-- C8 amended: every failed send attempt leaves no audio displayed (the
speculative clear before the attempt is never undone) and restores the
loading flag; the previously displayed markdown is left untouched whenever
the failure precedes response handling (backend error or JSON parse error)
or the response carries no truthy text field — but a failure inside
response handling after a truthy text field was applied has already
replaced the markdown. -/
theorem send_failure_frame_amended (st : AgentState) (r : HttpResponse)
    (h : (sendStep st r).2 = true) :
    (sendStep st r).1.audio = none ∧
    (sendStep st r).1.isLoading = false ∧
    (∀ m, sendResponseOutcome r = SendOutcome.backendThrow m →
      (sendStep st r).1.markdown = st.markdown) ∧
    (sendResponseOutcome r = SendOutcome.jsonParseThrow →
      (sendStep st r).1.markdown = st.markdown) ∧
    (∀ data, sendResponseOutcome r = SendOutcome.handled data →
      jsFieldTruthy data "text" = false → (sendStep st r).1.markdown = st.markdown) := by
  rcases hout : sendResponseOutcome r with data | m | _
  · rw [sendStep_of_handled st r data hout] at h ⊢
    have hthrew := (handleBackendJson_threw
      { st with isLoading := true, audio := none } data).mp h
    refine ⟨?_, rfl, ?_, ?_, ?_⟩
    · show (handleBackendJson { st with isLoading := true, audio := none } data).1.audio = none
      rw [handleBackendJson_audio]
      simp [hthrew.1, hthrew.2]
    · intro m hm
      cases hm
    · intro hm
      cases hm
    · intro data2 hd htext
      injection hd with hdd
      subst hdd
      show (handleBackendJson { st with isLoading := true, audio := none } data).1.markdown =
        st.markdown
      rw [handleBackendJson_markdown]
      simp [htext]
  · rw [sendStep_of_backendThrow st r m hout]
    refine ⟨rfl, rfl, fun _ _ => rfl, ?_, ?_⟩
    · intro hm
      cases hm
    · intro data hd
      cases hd
  · rw [sendStep_of_parseThrow st r hout]
    refine ⟨rfl, rfl, ?_, fun _ => rfl, ?_⟩
    · intro m hm
      cases hm
    · intro data hd
      cases hd

/-- C8 witness: a concrete backend-error failure keeps the prior markdown
and leaves no audio. -/
theorem send_failure_frame_amended_witness :
    (sendStep
      { markdown := Json.str "keep", audio := some { bytes := [7], type := "audio/mpeg" },
        isLoading := false }
      { status := 400, statusText := "Bad Request", contentType := some "application/json",
        body := HttpBody.jsonBody
          (Json.obj (JsonObject.cons "error" (Json.str "x") JsonObject.nil)) }).1.audio = none ∧
    (sendStep
      { markdown := Json.str "keep", audio := some { bytes := [7], type := "audio/mpeg" },
        isLoading := false }
      { status := 400, statusText := "Bad Request", contentType := some "application/json",
        body := HttpBody.jsonBody
          (Json.obj (JsonObject.cons "error" (Json.str "x") JsonObject.nil)) }).1.markdown =
      Json.str "keep" :=
  ⟨(send_failure_frame_amended
      { markdown := Json.str "keep", audio := some { bytes := [7], type := "audio/mpeg" },
        isLoading := false }
      { status := 400, statusText := "Bad Request", contentType := some "application/json",
        body := HttpBody.jsonBody
          (Json.obj (JsonObject.cons "error" (Json.str "x") JsonObject.nil)) } (by decide)).1,
   (send_failure_frame_amended
      { markdown := Json.str "keep", audio := some { bytes := [7], type := "audio/mpeg" },
        isLoading := false }
      { status := 400, statusText := "Bad Request", contentType := some "application/json",
        body := HttpBody.jsonBody
          (Json.obj (JsonObject.cons "error" (Json.str "x") JsonObject.nil)) }
      (by decide)).2.2.1 "x" (by decide)⟩

/-- C9 counterexample: a successful send does not always produce the
displayed result fresh from the response alone: a 2xx response whose body
is the empty object completes successfully yet the previously displayed
markdown "old" (from an earlier reply) is still displayed afterwards. -/
theorem reply_freshness_counterexample :
    (sendStep
      { markdown := Json.str "old", audio := some { bytes := [1], type := "audio/mpeg" },
        isLoading := false }
      { status := 200, statusText := "OK", contentType := some "application/json",
        body := HttpBody.jsonBody (Json.obj JsonObject.nil) }).2 = false ∧
    (sendStep
      { markdown := Json.str "old", audio := some { bytes := [1], type := "audio/mpeg" },
        isLoading := false }
      { status := 200, statusText := "OK", contentType := some "application/json",
        body := HttpBody.jsonBody (Json.obj JsonObject.nil) }).1.markdown = Json.str "old" :=
  ⟨rfl, rfl⟩

/-- C9 amended: after a handled response the displayed audio never retains
prior content — it is independent of the previous state and is either
cleared or decoded from this response's audio_b64 — and the markdown is set
fresh from the response's text field when that field is truthy, but retains
its previous value when the response lacks a truthy text field. -/
theorem reply_freshness_amended (st stB : AgentState) (r : HttpResponse) (data : Json)
    (hh : sendResponseOutcome r = SendOutcome.handled data)
    (_hs : (sendStep st r).2 = false) :
    (sendStep st r).1.audio = (sendStep stB r).1.audio ∧
    (jsFieldTruthy data "text" = true → (sendStep st r).1.markdown = jsField data "text") ∧
    (jsFieldTruthy data "text" = false → (sendStep st r).1.markdown = st.markdown) ∧
    ((sendStep st r).1.audio = none ∨
      (sendStep st r).1.audio =
        base64ToBlob (jsStringCoerce (jsField data "audio_b64")) (responseMime data)) := by
  rw [sendStep_of_handled st r data hh, sendStep_of_handled stB r data hh]
  refine ⟨?_, ?_, ?_, ?_⟩
  · show (handleBackendJson { st with isLoading := true, audio := none } data).1.audio =
      (handleBackendJson { stB with isLoading := true, audio := none } data).1.audio
    rw [handleBackendJson_audio, handleBackendJson_audio]
  · intro ht
    show (handleBackendJson { st with isLoading := true, audio := none } data).1.markdown = _
    rw [handleBackendJson_markdown]
    simp [ht]
  · intro ht
    show (handleBackendJson { st with isLoading := true, audio := none } data).1.markdown = _
    rw [handleBackendJson_markdown]
    simp [ht]
  · show (handleBackendJson { st with isLoading := true, audio := none } data).1.audio = none ∨ _
    rw [handleBackendJson_audio]
    cases haud : jsFieldTruthy data "audio_b64"
    · left
      simp [haud]
    · cases hdec : base64ToBlob (jsStringCoerce (jsField data "audio_b64")) (responseMime data)
      · left
        simp [haud, hdec]
      · right
        simp [haud, hdec]

/-- C9 witness: a 2xx response carrying text "fresh" replaces the markdown,
and the resulting audio does not depend on the prior state. -/
theorem reply_freshness_amended_witness :
    (sendStep
      { markdown := Json.str "old", audio := some { bytes := [1], type := "audio/mpeg" },
        isLoading := false }
      { status := 200, statusText := "OK", contentType := some "application/json",
        body := HttpBody.jsonBody
          (Json.obj (JsonObject.cons "text" (Json.str "fresh") JsonObject.nil)) }).1.markdown =
      jsField (Json.obj (JsonObject.cons "text" (Json.str "fresh") JsonObject.nil)) "text" ∧
    (sendStep
      { markdown := Json.str "old", audio := some { bytes := [1], type := "audio/mpeg" },
        isLoading := false }
      { status := 200, statusText := "OK", contentType := some "application/json",
        body := HttpBody.jsonBody
          (Json.obj (JsonObject.cons "text" (Json.str "fresh") JsonObject.nil)) }).1.audio =
    (sendStep
      { markdown := Json.str "other", audio := none, isLoading := true }
      { status := 200, statusText := "OK", contentType := some "application/json",
        body := HttpBody.jsonBody
          (Json.obj (JsonObject.cons "text" (Json.str "fresh") JsonObject.nil)) }).1.audio :=
  ⟨(reply_freshness_amended
      { markdown := Json.str "old", audio := some { bytes := [1], type := "audio/mpeg" },
        isLoading := false }
      { markdown := Json.str "other", audio := none, isLoading := true }
      { status := 200, statusText := "OK", contentType := some "application/json",
        body := HttpBody.jsonBody
          (Json.obj (JsonObject.cons "text" (Json.str "fresh") JsonObject.nil)) }
      (Json.obj (JsonObject.cons "text" (Json.str "fresh") JsonObject.nil))
      rfl (by decide)).2.1 (by decide),
   (reply_freshness_amended
      { markdown := Json.str "old", audio := some { bytes := [1], type := "audio/mpeg" },
        isLoading := false }
      { markdown := Json.str "other", audio := none, isLoading := true }
      { status := 200, statusText := "OK", contentType := some "application/json",
        body := HttpBody.jsonBody
          (Json.obj (JsonObject.cons "text" (Json.str "fresh") JsonObject.nil)) }
      (Json.obj (JsonObject.cons "text" (Json.str "fresh") JsonObject.nil))
      rfl (by decide)).1⟩

/-- C10: a text input that is empty or consists only of whitespace is
rejected locally: sendText of the unified component and handleSubmit of the
minimal component both return before any network request, leaving the
displayed markdown, audio and loading state unchanged. -/
theorem blank_text_no_request (st : AgentState) (stF : FetchState) (textQuery : String)
    (r : HttpResponse) (h : jsTrim textQuery = "") :
    sendTextStep st textQuery r = (st, none, false) ∧
    handleSubmit stF textQuery r = (stF, false) := by
  constructor
  · simp [sendTextStep, h]
  · simp [handleSubmit, h]

/-- C10 witness: the all-whitespace input. -/
theorem blank_text_no_request_witness :
    sendTextStep { markdown := Json.str "m", audio := none, isLoading := false } "   "
      { status := 200, statusText := "OK", contentType := some "application/json",
        body := HttpBody.jsonBody (Json.obj JsonObject.nil) } =
      ({ markdown := Json.str "m", audio := none, isLoading := false }, none, false) ∧
    handleSubmit { markdown := Json.str "m", isLoading := false } "   "
      { status := 200, statusText := "OK", contentType := some "application/json",
        body := HttpBody.jsonBody (Json.obj JsonObject.nil) } =
      ({ markdown := Json.str "m", isLoading := false }, false) :=
  blank_text_no_request
    { markdown := Json.str "m", audio := none, isLoading := false }
    { markdown := Json.str "m", isLoading := false } "   "
    { status := 200, statusText := "OK", contentType := some "application/json",
      body := HttpBody.jsonBody (Json.obj JsonObject.nil) } (by decide)
